import Mathlib

/-!
Shallow embedding of the FMS (File Management Service) backend of the
Upload-Image-to-S3 demo, from `src/backend/src/features/fms/fms.service.ts`
and `src/backend/src/features/fms/fms.controller.ts`.

Modelling conventions:
* JavaScript `number` values passed to the service are modelled by `JSNum`:
  either `nan` or an exact rational.  The comparisons `<=`, `>` on `NaN`
  are `false`, and `!x` (falsiness) is `true` exactly for `NaN` and `0`,
  as in JavaScript.
* A thrown `BadRequestException` is modelled by `Except.error` carrying an
  `FmsError`; the three constructors are the three `throw` sites of the
  service, each carrying the data interpolated into its message string.
* The AWS SDK is an external effect.  `getSignedUrl` is modelled by a
  caller-supplied oracle `signer : SignCall → String`; each service method
  additionally returns the list of SDK sign/send calls it performed, in
  order, so that "exactly one command is signed, with these fields" is a
  statement about that trace.  `s3Client.send` for deletes is likewise
  a trace entry.
* `process.env` is a record of `Option String`; JavaScript `a || b` on
  strings falls through when `a` is `undefined` or the empty string.
* JavaScript `String.prototype.replace` with a string pattern replaces only
  the first occurrence, and applies the special replacement patterns of the
  replacement string: a double dollar is a literal dollar, dollar-ampersand
  the matched substring, dollar-backquote the portion before the match,
  dollar-quote the portion after it; every other sequence (digits included,
  since a string pattern has no capture groups) is literal.  `jsReplaceFirst`
  implements exactly that, via `expandDollar`.
-/

namespace FmsModel

/-- A JavaScript number as the service observes it: `NaN` or an exact
rational value. -/
inductive JSNum where
  | nan : JSNum
  | num : ℚ → JSNum
deriving DecidableEq

/-- JavaScript falsiness of a number: `!x` is true for `NaN` and `0`. -/
def JSNum.falsy : JSNum → Bool
  | .nan => true
  | .num q => decide (q = 0)

/-- JavaScript `x <= 0`: false for `NaN`. -/
def JSNum.leZero : JSNum → Bool
  | .nan => false
  | .num q => decide (q ≤ 0)

/-- JavaScript `x > b` for a rational bound `b`: false for `NaN`. -/
def JSNum.gtQ : JSNum → ℚ → Bool
  | .nan, _ => false
  | .num q, b => decide (b < q)

/-- JavaScript `x > 0` as a strict positivity test (false for `NaN`). -/
def JSNum.isPos : JSNum → Bool
  | .nan => false
  | .num q => decide (0 < q)

/-- The three `BadRequestException` throw sites of `FmsService`, with the
data each message interpolates:
`invalidFileType ct` ~ "Invalid file type: {ct}. Allowed types: ...",
`fileSizeNotPositive` ~ "File size must be a positive number",
`fileSizeExceedsMax s` ~ "File size ({s}MB) exceeds maximum allowed size (5MB)". -/
inductive FmsError where
  | invalidFileType (contentType : String)
  | fileSizeNotPositive
  | fileSizeExceedsMax (fileSize : JSNum)
deriving DecidableEq

/-- `ALLOWED_MIME_TYPES` from fms.service.ts lines 16-21. -/
def ALLOWED_MIME_TYPES : List String :=
  ["image/jpeg", "image/jpg", "image/png", "image/webp"]

/-- `MAX_FILE_SIZE_BYTES = 5 * 1024 * 1024` from fms.service.ts line 26,
written as the evaluated numeral so that kernel reduction does not go
through rational normalisation; `MAX_FILE_SIZE_BYTES_eq` below recovers
the source expression. -/
def MAX_FILE_SIZE_BYTES : ℚ := 5242880

/-- `validateContentType` (fms.service.ts lines 113-119): throw
`BadRequestException` unless the content type is in the allow-list
(`ALLOWED_MIME_TYPES.includes(contentType)`). -/
def validateContentType (contentType : String) : Except FmsError Unit :=
  if ALLOWED_MIME_TYPES.contains contentType then Except.ok ()
  else Except.error (FmsError.invalidFileType contentType)

/-- `validateFileSize` (fms.service.ts lines 127-138):
`if (!fileSize || fileSize <= 0) throw ...` then
`if (fileSize > MAX_FILE_SIZE_BYTES) throw ...`. -/
def validateFileSize (fileSize : JSNum) : Except FmsError Unit :=
  if fileSize.falsy || fileSize.leZero then
    Except.error FmsError.fileSizeNotPositive
  else if fileSize.gtQ MAX_FILE_SIZE_BYTES then
    Except.error (FmsError.fileSizeExceedsMax fileSize)
  else Except.ok ()

/-- An S3 command the service constructs: the SDK commands
`PutObjectCommand`, `GetObjectCommand`, `DeleteObjectCommand` with the
fields the service fills in. -/
inductive S3Command where
  | putObject (bucket key contentType : String) (contentLength : JSNum)
  | getObject (bucket key : String)
  | deleteObject (bucket key : String)
deriving DecidableEq

/-- One call to `getSignedUrl(s3Client, cmd, { expiresIn })`. -/
structure SignCall where
  cmd : S3Command
  expiresIn : Nat
deriving DecidableEq

/-- The fields of `FmsService` relevant to its behaviour, as set by the
constructor: `bucketName`, `internalEndpoint`, `publicEndpoint`. -/
structure FmsState where
  bucketName : String
  internalEndpoint : Option String
  publicEndpoint : Option String
deriving DecidableEq

/-- The environment variables the constructor reads (`process.env.*`);
`none` models an unset variable. -/
structure Env where
  s3Endpoint : Option String
  s3PublicEndpoint : Option String
  awsBucketRegion : Option String
  awsAccessKey : Option String
  awsSecretKey : Option String
  awsBucketName : Option String

/-- JavaScript `a || b` on an optional string: fall through to `b` when `a`
is `undefined` or the empty string (both falsy). -/
def jsOrOpt (a b : Option String) : Option String :=
  match a with
  | some s => if s = "" then b else some s
  | none => b

/-- JavaScript `a || d` with a string default. -/
def jsOrDefault (a : Option String) (d : String) : String :=
  match a with
  | some s => if s = "" then d else s
  | none => d

/-- The configuration `new S3Client({...})` receives in the constructor
(fms.service.ts lines 74-85); `endpoint`/`forcePathStyle` only when
`isLocalStack`, i.e. when `S3_ENDPOINT` is truthy. -/
structure S3ClientConfig where
  region : String
  accessKeyId : String
  secretAccessKey : String
  endpoint : Option String
  forcePathStyle : Bool
deriving DecidableEq

/-- Truthiness of an optional string (`!!x`): defined and nonempty. -/
def optTruthy : Option String → Bool
  | none => false
  | some s => decide (s ≠ "")

/-- The `FmsService` constructor (fms.service.ts lines 63-94), restricted
to the fields that affect behaviour. -/
def mkFmsState (env : Env) : FmsState :=
  { bucketName := jsOrDefault env.awsBucketName "demo-bucket"
    internalEndpoint := env.s3Endpoint
    publicEndpoint := jsOrOpt env.s3PublicEndpoint env.s3Endpoint }

/-- The S3 client configuration the constructor builds. -/
def mkS3ClientConfig (env : Env) : S3ClientConfig :=
  { region := jsOrDefault env.awsBucketRegion "us-east-1"
    accessKeyId := jsOrDefault env.awsAccessKey "test"
    secretAccessKey := jsOrDefault env.awsSecretKey "test"
    endpoint := if optTruthy env.s3Endpoint then env.s3Endpoint else none
    forcePathStyle := optTruthy env.s3Endpoint }

/-- Bool test that `pat` is a prefix of `s` (character lists). -/
def isPrefixList : List Char → List Char → Bool
  | [], _ => true
  | _ :: _, [] => false
  | a :: as, b :: bs => a == b && isPrefixList as bs

/-- The dollar sign, code point 36. -/
def dollarChar : Char := Char.ofNat 36

/-- The ampersand, code point 38. -/
def ampChar : Char := Char.ofNat 38

/-- The backquote, code point 96. -/
def backquoteChar : Char := Char.ofNat 96

/-- The single quote, code point 39. -/
def quoteChar : Char := Char.ofNat 39

/-- JavaScript expansion of the special replacement patterns in the
replacement string of `String.prototype.replace` (ECMAScript
GetSubstitution): a double dollar yields one literal dollar,
dollar-ampersand yields the matched substring, dollar-backquote the
portion of the subject before the match, dollar-quote the portion after
it; any other dollar sequence, a trailing lone dollar and dollar-digit
included (a string pattern has no capture groups), is literal. -/
def expandDollar (matched before after : List Char) : List Char → List Char
  | [] => []
  | [c] => [c]
  | c :: d :: rest =>
    if c = dollarChar then
      if d = dollarChar then dollarChar :: expandDollar matched before after rest
      else if d = ampChar then matched ++ expandDollar matched before after rest
      else if d = backquoteChar then before ++ expandDollar matched before after rest
      else if d = quoteChar then after ++ expandDollar matched before after rest
      else c :: expandDollar matched before after (d :: rest)
    else c :: expandDollar matched before after (d :: rest)

/-- JavaScript `s.replace(pat, rep)` with a string pattern, on character
lists, scanning for the first occurrence of `pat`; `acc` holds the
already-scanned characters in reverse.  On a match the replacement is
`rep` with its special replacement patterns expanded; without a match the
subject is returned unchanged. -/
def replaceFirstAux (pat rep : List Char) (acc : List Char) : List Char → List Char
  | [] =>
    if isPrefixList pat [] then
      List.reverse acc ++ expandDollar pat (List.reverse acc) [] rep
    else List.reverse acc
  | c :: rest =>
    if isPrefixList pat (c :: rest) then
      List.reverse acc ++
        expandDollar pat (List.reverse acc) (List.drop pat.length (c :: rest)) rep ++
        List.drop pat.length (c :: rest)
    else replaceFirstAux pat rep (c :: acc) rest

/-- JavaScript `s.replace(pat, rep)` with a string pattern: first
occurrence only, special replacement patterns applied to `rep`. -/
def jsReplaceFirst (s pat rep : String) : String :=
  String.mk (replaceFirstAux pat.data rep.data [] s.data)

/-- `toPublicUrl` (fms.service.ts lines 100-105):
`if (this.internalEndpoint && this.publicEndpoint) return url.replace(...)`,
otherwise return the url unchanged.  The truthiness test is "defined and
nonempty". -/
def toPublicUrl (st : FmsState) (url : String) : String :=
  match st.internalEndpoint, st.publicEndpoint with
  | some ie, some pe =>
    if ie = "" ∨ pe = "" then url else jsReplaceFirst url ie pe
  | _, _ => url

/-- `getPreSignedURL` (fms.service.ts lines 159-180): validate content type
then file size; on success sign one `PutObjectCommand` with the configured
bucket, the given key, content type and `ContentLength := fileSize`, with
`expiresIn = 1800`, and pass the URL through `toPublicUrl`.  The second
component is the trace of sign calls performed. -/
def getPreSignedURL (st : FmsState) (signer : SignCall → String)
    (key contentType : String) (fileSize : JSNum) :
    Except FmsError String × List SignCall :=
  match validateContentType contentType with
  | Except.error e => (Except.error e, [])
  | Except.ok _ =>
    match validateFileSize fileSize with
    | Except.error e => (Except.error e, [])
    | Except.ok _ =>
      let call : SignCall :=
        ⟨S3Command.putObject st.bucketName key contentType fileSize, 1800⟩
      (Except.ok (toPublicUrl st (signer call)), [call])

/-- `getPreSignedURLToViewObject` (fms.service.ts lines 191-202): sign one
`GetObjectCommand` for the configured bucket and the given key with
`expiresIn = 300`, pass the URL through `toPublicUrl`; no validation. -/
def getPreSignedURLToViewObject (st : FmsState) (signer : SignCall → String)
    (key : String) : Except FmsError String × List SignCall :=
  let call : SignCall := ⟨S3Command.getObject st.bucketName key, 300⟩
  (Except.ok (toPublicUrl st (signer call)), [call])

/-- `deleteObject` (fms.service.ts lines 209-216): send one
`DeleteObjectCommand` for the configured bucket and key; resolve with no
value.  The second component is the trace of `s3Client.send` calls. -/
def deleteObject (st : FmsState) (key : String) : Unit × List S3Command :=
  ((), [S3Command.deleteObject st.bucketName key])

/-- The response shape of `GET /fms/upload-constraints`
(fms.controller.ts lines 44-51). -/
structure UploadConstraints where
  allowedMimeTypes : List String
  maxFileSizeBytes : ℚ
  maxFileSizeMB : ℚ
deriving DecidableEq

/-- `getUploadConstraints` (fms.controller.ts lines 44-51). -/
def getUploadConstraints : UploadConstraints :=
  { allowedMimeTypes := ALLOWED_MIME_TYPES
    maxFileSizeBytes := MAX_FILE_SIZE_BYTES
    maxFileSizeMB := MAX_FILE_SIZE_BYTES / (1024 * 1024) }

/-- A concrete service state used to instantiate theorems: the state the
constructor builds from an empty environment. -/
def demoState : FmsState :=
  mkFmsState ⟨none, none, none, none, none, none⟩

/-- A concrete signing oracle used to instantiate theorems. -/
def demoSigner : SignCall → String := fun _ => "https://signed.example/u"

end FmsModel

deriving instance DecidableEq for Except

namespace FmsModel

/-- The byte ceiling is the source expression `5 * 1024 * 1024`. -/
theorem MAX_FILE_SIZE_BYTES_eq : MAX_FILE_SIZE_BYTES = 5 * 1024 * 1024 := by
  norm_num [MAX_FILE_SIZE_BYTES]

/-- Membership in the allow-list yields `ok`. -/
theorem validateContentType_mem {ct : String} (h : ct ∈ ALLOWED_MIME_TYPES) :
    validateContentType ct = Except.ok () := by
  simp [validateContentType, List.contains, List.elem_iff, h]

/-- Non-membership in the allow-list yields the `invalidFileType` error. -/
theorem validateContentType_not_mem {ct : String} (h : ct ∉ ALLOWED_MIME_TYPES) :
    validateContentType ct = Except.error (FmsError.invalidFileType ct) := by
  simp [validateContentType, List.contains, List.elem_iff, h]

/-- Closed form of `validateFileSize` on a non-`NaN` argument. -/
theorem validateFileSize_num (q : ℚ) :
    validateFileSize (JSNum.num q) =
      if q ≤ 0 then Except.error FmsError.fileSizeNotPositive
      else if MAX_FILE_SIZE_BYTES < q then
        Except.error (FmsError.fileSizeExceedsMax (JSNum.num q))
      else Except.ok () := by
  by_cases h1 : q ≤ 0
  · have h0 : (JSNum.falsy (JSNum.num q) || JSNum.leZero (JSNum.num q)) = true := by
      simp [JSNum.falsy, JSNum.leZero, h1]
    simp [validateFileSize, h0, h1]
  · have hne : ¬ q = 0 := fun h => h1 (le_of_eq h)
    by_cases h2 : MAX_FILE_SIZE_BYTES < q <;>
      simp [validateFileSize, JSNum.falsy, JSNum.leZero, JSNum.gtQ, h1, hne, h2]

/-- `NaN` is rejected by the first guard of `validateFileSize`. -/
theorem validateFileSize_nan :
    validateFileSize JSNum.nan = Except.error FmsError.fileSizeNotPositive := rfl

/-- Every non-positive (or `NaN`) size hits the first guard. -/
theorem validateFileSize_notPos {fs : JSNum} (h : fs.isPos = false) :
    validateFileSize fs = Except.error FmsError.fileSizeNotPositive := by
  cases fs with
  | nan => rfl
  | num q =>
    have h1 : q ≤ 0 := by simpa [JSNum.isPos] using h
    rw [validateFileSize_num]
    simp [h1]

/-- A size that passes validation is strictly positive. -/
theorem validateFileSize_ok_isPos {fs : JSNum} (h : validateFileSize fs = Except.ok ()) :
    fs.isPos = true := by
  cases fs with
  | nan => simp [validateFileSize, JSNum.falsy] at h
  | num q =>
    rw [validateFileSize_num] at h
    by_cases h1 : q ≤ 0
    · simp [h1] at h
    · simp [JSNum.isPos, not_le.mp h1]

/-- Shape of `getPreSignedURL` when both validations pass. -/
theorem getPreSignedURL_ok (st : FmsState) (signer : SignCall → String)
    (key ct : String) (fs : JSNum)
    (hct : validateContentType ct = Except.ok ())
    (hfs : validateFileSize fs = Except.ok ()) :
    getPreSignedURL st signer key ct fs =
      (Except.ok (toPublicUrl st
        (signer ⟨S3Command.putObject st.bucketName key ct fs, 1800⟩)),
       [⟨S3Command.putObject st.bucketName key ct fs, 1800⟩]) := by
  simp [getPreSignedURL, hct, hfs]

/-- Shape of `getPreSignedURL` when content-type validation fails. -/
theorem getPreSignedURL_error_ct (st : FmsState) (signer : SignCall → String)
    (key ct : String) (fs : JSNum) (e : FmsError)
    (hct : validateContentType ct = Except.error e) :
    getPreSignedURL st signer key ct fs = (Except.error e, []) := by
  simp [getPreSignedURL, hct]

/-- Shape of `getPreSignedURL` when size validation fails. -/
theorem getPreSignedURL_error_fs (st : FmsState) (signer : SignCall → String)
    (key ct : String) (fs : JSNum) (e : FmsError)
    (hct : validateContentType ct = Except.ok ())
    (hfs : validateFileSize fs = Except.error e) :
    getPreSignedURL st signer key ct fs = (Except.error e, []) := by
  simp [getPreSignedURL, hct, hfs]

/-- A successful `getPreSignedURL` implies both validations passed. -/
theorem getPreSignedURL_ok_inv (st : FmsState) (signer : SignCall → String)
    (key ct : String) (fs : JSNum) (url : String) (calls : List SignCall)
    (h : getPreSignedURL st signer key ct fs = (Except.ok url, calls)) :
    validateContentType ct = Except.ok () ∧ validateFileSize fs = Except.ok () := by
  cases hv : validateContentType ct with
  | error e =>
    rw [getPreSignedURL_error_ct st signer key ct fs e hv] at h
    simp at h
  | ok u =>
    cases u
    cases hf : validateFileSize fs with
    | error e =>
      rw [getPreSignedURL_error_fs st signer key ct fs e hv hf] at h
      simp at h
    | ok u2 =>
      cases u2
      exact ⟨rfl, rfl⟩

/-- The sign-call trace of `getPreSignedURL` is empty or one `PutObject`. -/
theorem getPreSignedURL_trace_cases (st : FmsState) (signer : SignCall → String)
    (key ct : String) (fs : JSNum) :
    (getPreSignedURL st signer key ct fs).2 = [] ∨
    (getPreSignedURL st signer key ct fs).2 =
      [⟨S3Command.putObject st.bucketName key ct fs, 1800⟩] := by
  cases hv : validateContentType ct with
  | error e => exact Or.inl (by rw [getPreSignedURL_error_ct st signer key ct fs e hv])
  | ok u =>
    cases u
    cases hf : validateFileSize fs with
    | error e => exact Or.inl (by rw [getPreSignedURL_error_fs st signer key ct fs e hv hf])
    | ok u2 =>
      cases u2
      exact Or.inr (by rw [getPreSignedURL_ok st signer key ct fs hv hf])

end FmsModel

namespace FmsModel

/-- Index of the first occurrence of `pat` in `s`, or `none` when `pat`
does not occur.  This is the spec-side notion used to state what
JavaScript `replace` does; `firstMatchIndex_some`/`firstMatchIndex_none`
prove it really is the first occurrence. -/
def firstMatchIndex (pat : List Char) : List Char → Option Nat
  | [] => if isPrefixList pat [] then some 0 else none
  | c :: rest =>
    if isPrefixList pat (c :: rest) then some 0
    else (firstMatchIndex pat rest).map (· + 1)

/-- Spec-side replacement, following the claim wording: the input with the
first occurrence of `pat` replaced by `rep`, unchanged when `pat` does not
occur. -/
def specReplaceFirst (pat rep s : List Char) : List Char :=
  match firstMatchIndex pat s with
  | none => s
  | some i => List.take i s ++ rep ++ List.drop (i + pat.length) s

/-- When `firstMatchIndex` returns an index, `pat` occurs there and at no
earlier position. -/
theorem firstMatchIndex_some (pat : List Char) :
    ∀ (s : List Char) (i : Nat), firstMatchIndex pat s = some i →
      isPrefixList pat (List.drop i s) = true ∧
      ∀ j, j < i → isPrefixList pat (List.drop j s) = false := by
  intro s
  induction s with
  | nil =>
    intro i h
    by_cases hp : isPrefixList pat []
    · simp [firstMatchIndex, hp] at h
      subst h
      exact ⟨hp, fun j hj => absurd hj (Nat.not_lt_zero j)⟩
    · simp [firstMatchIndex, hp] at h
  | cons c rest ih =>
    intro i h
    by_cases hp : isPrefixList pat (c :: rest)
    · simp [firstMatchIndex, hp] at h
      subst h
      exact ⟨hp, fun j hj => absurd hj (Nat.not_lt_zero j)⟩
    · simp [firstMatchIndex, hp] at h
      obtain ⟨i0, hi0, rfl⟩ := h
      obtain ⟨h1, h2⟩ := ih i0 hi0
      refine ⟨by simpa using h1, ?_⟩
      intro j hj
      cases j with
      | zero => simpa using hp
      | succ j0 =>
        have : j0 < i0 := Nat.lt_of_succ_lt_succ hj
        simpa using h2 j0 this

/-- When `firstMatchIndex` returns `none`, `pat` occurs nowhere in `s`. -/
theorem firstMatchIndex_none (pat : List Char) :
    ∀ s : List Char, firstMatchIndex pat s = none →
      ∀ j, isPrefixList pat (List.drop j s) = false := by
  intro s
  induction s with
  | nil =>
    intro h j
    by_cases hp : isPrefixList pat []
    · simp [firstMatchIndex, hp] at h
    · simpa using hp
  | cons c rest ih =>
    intro h j
    by_cases hp : isPrefixList pat (c :: rest)
    · simp [firstMatchIndex, hp] at h
    · simp [firstMatchIndex, hp] at h
      cases j with
      | zero => simpa using hp
      | succ j0 => simpa using ih h j0

/-- Index-based description of JavaScript `replace` with a string pattern:
the portion before the first occurrence, then the replacement with its
special replacement patterns expanded, then the portion after; the subject
unchanged when the pattern does not occur. -/
def specReplaceFirstJS (pat rep s : List Char) : List Char :=
  match firstMatchIndex pat s with
  | none => s
  | some i =>
    List.take i s ++
      expandDollar pat (List.take i s) (List.drop (i + pat.length) s) rep ++
      List.drop (i + pat.length) s

/-- A replacement string without a dollar sign is spliced in literally. -/
theorem expandDollar_no_dollar (matched before after : List Char) :
    ∀ rep : List Char, dollarChar ∉ rep →
      expandDollar matched before after rep = rep := by
  intro rep
  induction rep with
  | nil => intro h; rfl
  | cons c rest ih =>
    intro h
    have hc : ¬ c = dollarChar := fun hh => h (hh ▸ List.mem_cons_self c rest)
    have hrest : dollarChar ∉ rest := fun hh => h (List.mem_cons_of_mem c hh)
    cases rest with
    | nil => rfl
    | cons d rest2 =>
      have hstep : expandDollar matched before after (c :: d :: rest2) =
          c :: expandDollar matched before after (d :: rest2) := by
        simp [expandDollar, hc]
      rw [hstep, ih hrest]

/-- Without a dollar sign in the replacement, the JavaScript replacement
coincides with the plain first-occurrence splice. -/
theorem specReplaceFirstJS_no_dollar (pat rep s : List Char)
    (h : dollarChar ∉ rep) :
    specReplaceFirstJS pat rep s = specReplaceFirst pat rep s := by
  unfold specReplaceFirstJS specReplaceFirst
  cases hfi : firstMatchIndex pat s with
  | none => rfl
  | some i =>
    simp [expandDollar_no_dollar pat (List.take i s)
      (List.drop (i + pat.length) s) rep h]

/-- The scanning implementation of JavaScript `replace` agrees with the
index-based description, for every accumulator of already-scanned
characters. -/
theorem replaceFirstAux_eq (pat rep : List Char) :
    ∀ s acc : List Char,
      replaceFirstAux pat rep acc s =
        match firstMatchIndex pat s with
        | none => List.reverse acc ++ s
        | some i =>
          List.reverse acc ++ List.take i s ++
            expandDollar pat (List.reverse acc ++ List.take i s)
              (List.drop (i + pat.length) s) rep ++
            List.drop (i + pat.length) s := by
  intro s
  induction s with
  | nil =>
    intro acc
    by_cases hp : isPrefixList pat []
    · have hpat : pat = [] := by
        cases pat with
        | nil => rfl
        | cons a as => simp [isPrefixList] at hp
      subst hpat
      simp [replaceFirstAux, firstMatchIndex, isPrefixList]
    · simp [replaceFirstAux, firstMatchIndex, hp]
  | cons c rest ih =>
    intro acc
    by_cases hp : isPrefixList pat (c :: rest)
    · simp [replaceFirstAux, firstMatchIndex, hp]
    · have hstep : replaceFirstAux pat rep acc (c :: rest) =
          replaceFirstAux pat rep (c :: acc) rest := by
        simp [replaceFirstAux, hp]
      rw [hstep, ih (c :: acc)]
      cases hfi : firstMatchIndex pat rest with
      | none => simp [firstMatchIndex, hp, hfi]
      | some i =>
        have hd : List.drop (i + 1 + pat.length) (c :: rest) =
            List.drop (i + pat.length) rest := by
          have harith : i + 1 + pat.length = (i + pat.length) + 1 := by omega
          rw [harith, List.drop_succ_cons]
        simp [firstMatchIndex, hp, hfi, hd, List.take_succ_cons]

/-- `jsReplaceFirst` agrees with the index-based description of
JavaScript `replace`. -/
theorem jsReplaceFirst_eq_specJS (s pat rep : String) :
    jsReplaceFirst s pat rep =
      String.mk (specReplaceFirstJS pat.data rep.data s.data) := by
  rw [jsReplaceFirst, replaceFirstAux_eq pat.data rep.data s.data []]
  cases hfi : firstMatchIndex pat.data s.data <;>
    simp [specReplaceFirstJS, hfi]

end FmsModel

namespace FmsModel

/-- C1: `validateContentType contentType` throws `BadRequestException` if
and only if `contentType` is not one of the four strings of
`ALLOWED_MIME_TYPES`; for every content type in that list it returns
without error. -/
theorem c1_allowlist (contentType : String) :
    (validateContentType contentType =
        Except.error (FmsError.invalidFileType contentType) ↔
      contentType ∉ ALLOWED_MIME_TYPES) ∧
    (validateContentType contentType = Except.ok () ↔
      contentType ∈ ALLOWED_MIME_TYPES) := by
  by_cases h : contentType ∈ ALLOWED_MIME_TYPES
  · simp [validateContentType_mem h, h]
  · simp [validateContentType_not_mem h, h]

/-- Witness for C1 at the concrete content type "text/html". -/
theorem c1_allowlist_witness :
    (validateContentType "text/html" =
        Except.error (FmsError.invalidFileType "text/html") ↔
      "text/html" ∉ ALLOWED_MIME_TYPES) ∧
    (validateContentType "text/html" = Except.ok () ↔
      "text/html" ∈ ALLOWED_MIME_TYPES) :=
  c1_allowlist "text/html"

/-- C2: for every positive file size, `validateFileSize` throws if and
only if the size strictly exceeds `MAX_FILE_SIZE_BYTES = 5 * 1024 * 1024
= 5242880`; in particular the ceiling itself is accepted. -/
theorem c2_size_ceiling (q : ℚ) (hpos : 0 < q) :
    (validateFileSize (JSNum.num q) = Except.ok () ↔ q ≤ MAX_FILE_SIZE_BYTES) ∧
    ((∃ e, validateFileSize (JSNum.num q) = Except.error e) ↔
      MAX_FILE_SIZE_BYTES < q) ∧
    MAX_FILE_SIZE_BYTES = 5 * 1024 * 1024 := by
  have h1 : ¬ q ≤ 0 := not_le.mpr hpos
  rw [validateFileSize_num]
  refine ⟨?_, ?_, MAX_FILE_SIZE_BYTES_eq⟩
  · constructor
    · intro h
      by_contra hgt
      have h2 : MAX_FILE_SIZE_BYTES < q := not_le.mp hgt
      simp [h1, h2] at h
    · intro hle
      have h2 : ¬ MAX_FILE_SIZE_BYTES < q := not_lt.mpr hle
      simp [h1, h2]
  · constructor
    · rintro ⟨e, he⟩
      by_contra h2
      simp [h1, h2] at he
    · intro h2
      exact ⟨FmsError.fileSizeExceedsMax (JSNum.num q), by simp [h1, h2]⟩

/-- Witness for C2 at the ceiling itself, 5242880 bytes, which is
accepted. -/
theorem c2_size_ceiling_witness :
    (0 : ℚ) < 5242880 ∧
    ((validateFileSize (JSNum.num 5242880) = Except.ok () ↔
        (5242880 : ℚ) ≤ MAX_FILE_SIZE_BYTES) ∧
      ((∃ e, validateFileSize (JSNum.num 5242880) = Except.error e) ↔
        MAX_FILE_SIZE_BYTES < (5242880 : ℚ)) ∧
      MAX_FILE_SIZE_BYTES = 5 * 1024 * 1024) :=
  ⟨by decide, c2_size_ceiling 5242880 (by decide)⟩

/-- C3: every sign call made by `getPreSignedURL` uses `expiresIn = 1800`
and every sign call made by `getPreSignedURLToViewObject` uses
`expiresIn = 300`; these are the only two signing functions of the
service (`deleteObject` signs nothing), so no other expiry occurs. -/
theorem c3_fixed_expiry (st : FmsState) (signer : SignCall → String)
    (key contentType : String) (fileSize : JSNum) :
    (∀ c ∈ (getPreSignedURL st signer key contentType fileSize).2,
      c.expiresIn = 1800) ∧
    (∀ c ∈ (getPreSignedURLToViewObject st signer key).2, c.expiresIn = 300) := by
  constructor
  · intro c hc
    rcases getPreSignedURL_trace_cases st signer key contentType fileSize with h | h
    · rw [h] at hc
      simp at hc
    · rw [h] at hc
      simp at hc
      subst hc
      rfl
  · intro c hc
    simp [getPreSignedURLToViewObject] at hc
    subst hc
    rfl

/-- Witness for C3 at a concrete valid upload request and view request. -/
theorem c3_fixed_expiry_witness :
    (∀ c ∈ (getPreSignedURL demoState demoSigner "profile/a.png" "image/png"
        (JSNum.num 100)).2, c.expiresIn = 1800) ∧
    (∀ c ∈ (getPreSignedURLToViewObject demoState demoSigner "profile/a.png").2,
      c.expiresIn = 300) :=
  c3_fixed_expiry demoState demoSigner "profile/a.png" "image/png" (JSNum.num 100)

/-- C4: when the content type is outside the allow-list or the file size
fails validation, `getPreSignedURL` returns a `BadRequestException`
(an `FmsError`) and its sign-call trace is empty: no `PutObjectCommand`
is constructed or signed, and no state is touched. -/
theorem c4_guard_before_sign (st : FmsState) (signer : SignCall → String)
    (key contentType : String) (fileSize : JSNum)
    (h : contentType ∉ ALLOWED_MIME_TYPES ∨
      ∃ e, validateFileSize fileSize = Except.error e) :
    ∃ e, getPreSignedURL st signer key contentType fileSize =
      (Except.error e, []) := by
  rcases h with hct | ⟨e, he⟩
  · exact ⟨_, getPreSignedURL_error_ct st signer key contentType fileSize _
      (validateContentType_not_mem hct)⟩
  · cases hv : validateContentType contentType with
    | error e2 =>
      exact ⟨e2, getPreSignedURL_error_ct st signer key contentType fileSize e2 hv⟩
    | ok u =>
      cases u
      exact ⟨e, getPreSignedURL_error_fs st signer key contentType fileSize e hv he⟩

/-- Witness for C4 at the disallowed content type "text/plain". -/
theorem c4_guard_before_sign_witness :
    ("text/plain" ∉ ALLOWED_MIME_TYPES ∨
      ∃ e, validateFileSize (JSNum.num 10) = Except.error e) ∧
    ∃ e, getPreSignedURL demoState demoSigner "k" "text/plain" (JSNum.num 10) =
      (Except.error e, []) :=
  ⟨Or.inl (by decide),
    c4_guard_before_sign demoState demoSigner "k" "text/plain" (JSNum.num 10)
      (Or.inl (by decide))⟩

/-- C5, counterexample: with the internal endpoint "a" and the public
endpoint "$&x" (both truthy), the program expands the dollar-ampersand
replacement pattern, so `toPublicUrl` of "za" is "zax" and not the plain
splice "z$&x" the claim describes. -/
theorem c5_plain_splice_counterexample :
    toPublicUrl (mkFmsState ⟨some "a", some "$&x", none, none, none, none⟩)
        "za" = "zax" ∧
    String.mk (specReplaceFirst ("a").data ("$&x").data ("za").data) = "z$&x" ∧
    toPublicUrl (mkFmsState ⟨some "a", some "$&x", none, none, none, none⟩)
        "za" ≠
      String.mk (specReplaceFirst ("a").data ("$&x").data ("za").data) := by
  decide

/-- C5 (amended): on a state built by the constructor, when the internal
endpoint (`S3_ENDPOINT`) and the public endpoint are both set (truthy),
`toPublicUrl` returns the input with the first occurrence of the internal
endpoint replaced by the public-endpoint string with JavaScript special
replacement patterns expanded (`specReplaceFirstJS`); when the public
endpoint contains no dollar sign this is the plain first-occurrence
splice (`specReplaceFirst`); when `S3_ENDPOINT` is unset, every URL is
returned unchanged, character for character. -/
theorem c5_toPublicUrl_rewrite_amended (env : Env) (url : String) :
    (env.s3Endpoint = none → toPublicUrl (mkFmsState env) url = url) ∧
    (∀ ie pe : String, (mkFmsState env).internalEndpoint = some ie → ie ≠ "" →
      (mkFmsState env).publicEndpoint = some pe → pe ≠ "" →
      toPublicUrl (mkFmsState env) url =
        String.mk (specReplaceFirstJS ie.data pe.data url.data) ∧
      (dollarChar ∉ pe.data →
        toPublicUrl (mkFmsState env) url =
          String.mk (specReplaceFirst ie.data pe.data url.data))) := by
  constructor
  · intro h
    simp [toPublicUrl, mkFmsState, h]
  · intro ie pe hie hne1 hpe hne2
    have hmain : toPublicUrl (mkFmsState env) url = jsReplaceFirst url ie pe := by
      simp only [toPublicUrl, hie, hpe]
      simp [hne1, hne2]
    refine ⟨?_, ?_⟩
    · rw [hmain, jsReplaceFirst_eq_specJS]
    · intro hnd
      rw [hmain, jsReplaceFirst_eq_specJS,
        specReplaceFirstJS_no_dollar ie.data pe.data url.data hnd]

/-- Witness for the amended C5: an unset endpoint leaves the URL
unchanged, and the dollar-free LocalStack endpoint pair rewrites the
first occurrence as a plain splice. -/
theorem c5_toPublicUrl_rewrite_amended_witness :
    ((⟨none, none, none, none, none, none⟩ : Env).s3Endpoint = none ∧
      toPublicUrl (mkFmsState ⟨none, none, none, none, none, none⟩)
        "http://localstack:4566/demo-bucket/k.png" =
        "http://localstack:4566/demo-bucket/k.png") ∧
    ((mkFmsState ⟨some "http://localstack:4566", some "http://localhost:4566",
        none, none, none, none⟩).internalEndpoint = some "http://localstack:4566" ∧
      "http://localstack:4566" ≠ "" ∧
      (mkFmsState ⟨some "http://localstack:4566", some "http://localhost:4566",
        none, none, none, none⟩).publicEndpoint = some "http://localhost:4566" ∧
      "http://localhost:4566" ≠ "" ∧
      toPublicUrl (mkFmsState ⟨some "http://localstack:4566",
          some "http://localhost:4566", none, none, none, none⟩)
        "http://localstack:4566/demo-bucket/k.png" =
        String.mk (specReplaceFirstJS ("http://localstack:4566").data
          ("http://localhost:4566").data
          ("http://localstack:4566/demo-bucket/k.png").data) ∧
      dollarChar ∉ ("http://localhost:4566").data ∧
      toPublicUrl (mkFmsState ⟨some "http://localstack:4566",
          some "http://localhost:4566", none, none, none, none⟩)
        "http://localstack:4566/demo-bucket/k.png" =
        String.mk (specReplaceFirst ("http://localstack:4566").data
          ("http://localhost:4566").data
          ("http://localstack:4566/demo-bucket/k.png").data)) := by
  have h := (c5_toPublicUrl_rewrite_amended ⟨some "http://localstack:4566",
      some "http://localhost:4566", none, none, none, none⟩
    "http://localstack:4566/demo-bucket/k.png").2
    "http://localstack:4566" "http://localhost:4566" rfl (by decide) rfl (by decide)
  exact ⟨⟨rfl, (c5_toPublicUrl_rewrite_amended ⟨none, none, none, none, none, none⟩
      "http://localstack:4566/demo-bucket/k.png").1 rfl⟩,
    rfl, by decide, rfl, by decide, h.1, by decide, h.2 (by decide)⟩

end FmsModel

namespace FmsModel

/-- C6: on valid input, `getPreSignedURL` signs exactly one
`PutObjectCommand` carrying the configured bucket, the given key, the
given content type and `ContentLength = fileSize`, and
`getPreSignedURLToViewObject` signs exactly one `GetObjectCommand` with
the configured bucket and the given key; the traces show these are the
only sign calls either function makes. -/
theorem c6_signed_commands (st : FmsState) (signer : SignCall → String)
    (key contentType : String) (fileSize : JSNum)
    (hct : validateContentType contentType = Except.ok ())
    (hfs : validateFileSize fileSize = Except.ok ()) :
    getPreSignedURL st signer key contentType fileSize =
      (Except.ok (toPublicUrl st
        (signer ⟨S3Command.putObject st.bucketName key contentType fileSize, 1800⟩)),
       [⟨S3Command.putObject st.bucketName key contentType fileSize, 1800⟩]) ∧
    getPreSignedURLToViewObject st signer key =
      (Except.ok (toPublicUrl st (signer ⟨S3Command.getObject st.bucketName key, 300⟩)),
       [⟨S3Command.getObject st.bucketName key, 300⟩]) :=
  ⟨getPreSignedURL_ok st signer key contentType fileSize hct hfs, rfl⟩

/-- Witness for C6 at a concrete valid request. -/
theorem c6_signed_commands_witness :
    validateContentType "image/webp" = Except.ok () ∧
    validateFileSize (JSNum.num 2048) = Except.ok () ∧
    (getPreSignedURL demoState demoSigner "profile/a.webp" "image/webp" (JSNum.num 2048) =
      (Except.ok (toPublicUrl demoState
        (demoSigner ⟨S3Command.putObject demoState.bucketName "profile/a.webp"
          "image/webp" (JSNum.num 2048), 1800⟩)),
       [⟨S3Command.putObject demoState.bucketName "profile/a.webp" "image/webp"
          (JSNum.num 2048), 1800⟩]) ∧
    getPreSignedURLToViewObject demoState demoSigner "profile/a.webp" =
      (Except.ok (toPublicUrl demoState
        (demoSigner ⟨S3Command.getObject demoState.bucketName "profile/a.webp", 300⟩)),
       [⟨S3Command.getObject demoState.bucketName "profile/a.webp", 300⟩])) :=
  ⟨by decide, by decide,
    c6_signed_commands demoState demoSigner "profile/a.webp" "image/webp"
      (JSNum.num 2048) (by decide) (by decide)⟩

/-- C7: `deleteObject` sends exactly one `DeleteObjectCommand` with the
configured bucket and the given key, performs no validation on the key,
and resolves with no value. -/
theorem c7_deleteObject_single_send (st : FmsState) (key : String) :
    deleteObject st key = ((), [S3Command.deleteObject st.bucketName key]) := rfl

/-- Witness for C7 at a concrete key (no validation applies, the empty
key included). -/
theorem c7_deleteObject_single_send_witness :
    deleteObject demoState "" = ((), [S3Command.deleteObject "demo-bucket" ""]) :=
  c7_deleteObject_single_send demoState ""

/-- C8: `validateFileSize` also throws ("File size must be a positive
number", the `fileSizeNotPositive` error) for every size that is zero,
negative or `NaN`, so a successful `getPreSignedURL` always signs a
`PutObjectCommand` whose `ContentLength` is strictly positive. -/
theorem c8_positive_content_length :
    (∀ fileSize : JSNum, fileSize.isPos = false →
      validateFileSize fileSize = Except.error FmsError.fileSizeNotPositive) ∧
    (∀ (st : FmsState) (signer : SignCall → String) (key contentType : String)
      (fileSize : JSNum) (url : String) (calls : List SignCall),
      getPreSignedURL st signer key contentType fileSize = (Except.ok url, calls) →
      fileSize.isPos = true ∧
      calls = [⟨S3Command.putObject st.bucketName key contentType fileSize, 1800⟩]) := by
  constructor
  · exact fun fileSize h => validateFileSize_notPos h
  · intro st signer key ct fs url calls h
    obtain ⟨hct, hfs⟩ := getPreSignedURL_ok_inv st signer key ct fs url calls h
    refine ⟨validateFileSize_ok_isPos hfs, ?_⟩
    rw [getPreSignedURL_ok st signer key ct fs hct hfs] at h
    exact (congrArg Prod.snd h).symm

/-- Witness for C8: `NaN` is rejected, and a concrete successful request
signs one positive-length `PutObjectCommand`. -/
theorem c8_positive_content_length_witness :
    JSNum.nan.isPos = false ∧
    validateFileSize JSNum.nan = Except.error FmsError.fileSizeNotPositive ∧
    ((JSNum.num 42).isPos = true ∧
      ([⟨S3Command.putObject "demo-bucket" "k" "image/jpeg" (JSNum.num 42), 1800⟩] :
          List SignCall) =
        [⟨S3Command.putObject demoState.bucketName "k" "image/jpeg" (JSNum.num 42),
          1800⟩]) :=
  ⟨rfl, c8_positive_content_length.1 JSNum.nan rfl,
    c8_positive_content_length.2 demoState demoSigner "k" "image/jpeg" (JSNum.num 42)
      "https://signed.example/u"
      [⟨S3Command.putObject "demo-bucket" "k" "image/jpeg" (JSNum.num 42), 1800⟩]
      (by decide)⟩

/-- C9: the view path applies no validation: for every key, the empty
string included, `getPreSignedURLToViewObject` never produces an error
and signs exactly one `GetObjectCommand` for that key. -/
theorem c9_view_unguarded (st : FmsState) (signer : SignCall → String)
    (key : String) :
    getPreSignedURLToViewObject st signer key =
      (Except.ok (toPublicUrl st (signer ⟨S3Command.getObject st.bucketName key, 300⟩)),
       [⟨S3Command.getObject st.bucketName key, 300⟩]) := rfl

/-- Witness for C9 at the empty key. -/
theorem c9_view_unguarded_witness :
    getPreSignedURLToViewObject demoState demoSigner "" =
      (Except.ok "https://signed.example/u",
       [⟨S3Command.getObject "demo-bucket" "", 300⟩]) :=
  c9_view_unguarded demoState demoSigner ""

/-- C10: `getUploadConstraints` advertises exactly the enforced
constraints: `allowedMimeTypes = ALLOWED_MIME_TYPES` and
`maxFileSizeBytes = MAX_FILE_SIZE_BYTES`, and every request whose content
type is among the returned types and whose size is positive and at most
the returned ceiling passes both validations. -/
theorem c10_constraints_enforced :
    getUploadConstraints.allowedMimeTypes = ALLOWED_MIME_TYPES ∧
    getUploadConstraints.maxFileSizeBytes = MAX_FILE_SIZE_BYTES ∧
    ∀ (contentType : String) (fileSize : ℚ),
      contentType ∈ getUploadConstraints.allowedMimeTypes →
      0 < fileSize → fileSize ≤ getUploadConstraints.maxFileSizeBytes →
      validateContentType contentType = Except.ok () ∧
      validateFileSize (JSNum.num fileSize) = Except.ok () := by
  refine ⟨rfl, rfl, ?_⟩
  intro contentType fileSize hmem h0 hle
  refine ⟨validateContentType_mem hmem, ?_⟩
  rw [validateFileSize_num]
  have h1 : ¬ fileSize ≤ 0 := not_le.mpr h0
  have h2 : ¬ MAX_FILE_SIZE_BYTES < fileSize := not_lt.mpr hle
  simp [h1, h2]

/-- Witness for C10 at "image/webp" and 1024 bytes. -/
theorem c10_constraints_enforced_witness :
    "image/webp" ∈ getUploadConstraints.allowedMimeTypes ∧
    (0 : ℚ) < 1024 ∧
    (1024 : ℚ) ≤ getUploadConstraints.maxFileSizeBytes ∧
    (validateContentType "image/webp" = Except.ok () ∧
      validateFileSize (JSNum.num 1024) = Except.ok ()) :=
  ⟨by decide, by decide, by decide,
    c10_constraints_enforced.2.2 "image/webp" 1024 (by decide) (by decide) (by decide)⟩

end FmsModel
